import Mathlib

/-!
Shallow embedding of the Budget Manager ledger and aggregation engine.

Sources embedded here:
- `Budget-Management.Backend/controllers/transactionController.js`
  (`createTransaction`, `getTransactions`, `updateTransaction`,
   `deleteTransaction`, `getMonthlySummary`)
- `Budget-Management.Backend/controllers/categoryController.js`
  (`getCategories`, `createCategory`, `deleteCategory`)
- `server/services/summaryService.js` (`monthlySummary`)
- `server/services/aiService.js` (`callLLM`, `list`, `generateAndSave`)
- the Angular `ReportsComponent.loadData` aggregation (category breakdown).

Modelling conventions: Sequelize rows become Lean structures; the store is a
`List` of rows and each handler passes the store state explicitly.  Numeric
amounts (SQL FLOAT) are modelled as `Int`; dates (SQL DATE) as `Int`
timestamps.  HTTP error responses become an explicit error type.  The
calendar arithmetic that turns a `YYYY-MM` month string into
`[firstOfMonth, firstOfNextMonth)` is abstracted into the two `Int` bounds
handed to the window filter, which embeds the Sequelize `where` clause
verbatim.
-/

/-- The income/expense enum of the Transaction model (DataTypes.ENUM). -/
inductive TxKind where
  | income
  | expense
deriving DecidableEq, Repr

/-- A row of the `transactions` table (models/Transaction.js). -/
structure Transaction where
  id : Nat
  userId : Nat
  amount : Int
  date : Int
  categoryId : Nat
  type : TxKind
  description : Option String
deriving DecidableEq, Repr

/-- A row of the `categories` table (models/Category.js); `userId` is
nullable — `none` is a global category. -/
structure Category where
  id : Nat
  name : String
  userId : Option Nat
deriving DecidableEq, Repr

/-- A row of the `aisuggestions` table (models/AISuggestion.js). -/
structure Suggestion where
  userId : Nat
  prompt : String
  response : String
  createdAt : Nat
deriving DecidableEq, Repr

/-- The error outcomes of the HTTP handlers, by status code and message:
400 validation, the ambiguous transaction 404, the category 404, and the
category 403. -/
inductive ApiError where
  | validationError
  | notFoundOrForbidden
  | notFound
  | forbidden
deriving DecidableEq, Repr

/-! ## transactionController.js -/

/-- The findAll-by-userId filter of `getTransactions`. -/
def listTransactions (store : List Transaction) (uid : Nat) : List Transaction :=
  store.filter (fun t => t.userId == uid)

/-- GET /api/transactions: rejects a missing `userId` query parameter,
otherwise returns the rows with that `userId`. -/
def getTransactions (store : List Transaction) (userId? : Option Nat) :
    Except ApiError (List Transaction) :=
  match userId? with
  | none => .error .validationError
  | some uid => .ok (listTransactions store uid)

/-- Request body of POST /api/transactions: `userId` and `type` may be
absent (they are validated), the other fields are taken as given. -/
structure TxBody where
  userId? : Option Nat
  type? : Option String
  amount : Int
  date : Int
  categoryId : Nat
  description : Option String

/-- The row persisted by `Transaction.create(req.body)` once validation
passed (`ty` is one of "income"/"expense"). -/
def storedTx (nextId : Nat) (uid : Nat) (ty : String) (body : TxBody) : Transaction :=
  { id := nextId
    userId := uid
    amount := body.amount
    date := body.date
    categoryId := body.categoryId
    type := if ty == "income" then .income else .expense
    description := body.description }

/-- POST /api/transactions: requires `userId` in the body and
`type ∈ {income, expense}`; then creates the row.  No other field is
validated — in particular the sign of `amount` is not checked. -/
def createTransaction (store : List Transaction) (nextId : Nat) (body : TxBody) :
    Except ApiError Transaction × List Transaction :=
  match body.userId? with
  | none => (.error .validationError, store)
  | some uid =>
    match body.type? with
    | none => (.error .validationError, store)
    | some ty =>
      if ty == "income" || ty == "expense" then
        let t := storedTx nextId uid ty body
        (.ok t, store ++ [t])
      else
        (.error .validationError, store)

/-- Update fields of PUT /api/transactions/:id: `userId` is required for
the ownership check; every other field is replaced only when present in
the body. -/
structure TxUpdate where
  userId? : Option Nat
  amount? : Option Int
  type? : Option TxKind
  date? : Option Int
  categoryId? : Option Nat
  description? : Option String

/-- Models `transaction.update(req.body)`: replaces each field present in the
body (the `userId` in the body equals the one on the row, since the lookup matched it). -/
def applyUpdate (t : Transaction) (fields : TxUpdate) : Transaction :=
  { t with
    amount := fields.amount?.getD t.amount
    type := fields.type?.getD t.type
    date := fields.date?.getD t.date
    categoryId := fields.categoryId?.getD t.categoryId
    description := match fields.description? with
      | some d => some d
      | none => t.description }

/-- PUT /api/transactions/:id: 400 without `userId`;
`findOne({ where: { id, userId } })` enforces ownership, yielding the
single ambiguous 404 when the row is missing or owned by someone else;
otherwise updates the row in place.  The resulting store is returned in
every branch. -/
def updateTransaction (store : List Transaction) (transactionId : Nat)
    (fields : TxUpdate) : Except ApiError Transaction × List Transaction :=
  match fields.userId? with
  | none => (.error .validationError, store)
  | some uid =>
    match store.find? (fun t => t.id == transactionId && t.userId == uid) with
    | none => (.error .notFoundOrForbidden, store)
    | some t =>
      let updated := applyUpdate t fields
      (.ok updated,
       store.map (fun s => if s.id == transactionId && s.userId == uid then updated else s))

/-- DELETE /api/transactions/:id: same ownership lookup as update, then
`destroy()` removes the row. -/
def deleteTransaction (store : List Transaction) (transactionId : Nat)
    (userId? : Option Nat) : Except ApiError Unit × List Transaction :=
  match userId? with
  | none => (.error .validationError, store)
  | some uid =>
    match store.find? (fun t => t.id == transactionId && t.userId == uid) with
    | none => (.error .notFoundOrForbidden, store)
    | some t =>
      (.ok (), store.filter (fun s => !(s.id == t.id)))

/-! ## summaryService.js -/

/-- The `findAll` where clause of `monthlySummary`:
`userId` matches and `date: { [Op.gte]: startDate, [Op.lt]: endDate }`
(half-open window). -/
def monthlySummaryTxs (store : List Transaction) (uid : Nat)
    (startDate endDate : Int) : List Transaction :=
  store.filter (fun t =>
    t.userId == uid && decide (startDate ≤ t.date) && decide (t.date < endDate))

/-- Models the reduce `(sum, t) => sum + t.amount` with initial value 0. -/
def sumAmounts (l : List Transaction) : Int :=
  l.foldl (fun sum t => sum + t.amount) 0

/-- The `{ income, expense, balance }` result of `monthlySummary`. -/
structure Summary where
  income : Int
  expense : Int
  balance : Int
deriving DecidableEq, Repr

/-- Models `monthlySummary(userId, month)` with the two month bounds already
computed: filter the rows of the user to `[startDate, endDate)`, sum the
income rows, sum the expense rows, return income, expense and their
difference. -/
def monthlySummary (store : List Transaction) (uid : Nat)
    (startDate endDate : Int) : Summary :=
  let list := monthlySummaryTxs store uid startDate endDate
  let income := sumAmounts (list.filter (fun t => t.type == .income))
  let expense := sumAmounts (list.filter (fun t => t.type == .expense))
  { income := income, expense := expense, balance := income - expense }

/-- Component-wise sum of two summaries (the `combine` of the spec). -/
def combine (a b : Summary) : Summary :=
  { income := a.income + b.income
    expense := a.expense + b.expense
    balance := a.balance + b.balance }

/-! ## getMonthlySummary (transactionController.js) -/

/-- The `findAll` where clause of `getMonthlySummary`: `userId` matches and
`date: { [Op.between]: [startOfThisMonth, endOfToday] }` — `Op.between`
is inclusive at BOTH bounds. -/
def getMonthlySummaryTxs (store : List Transaction) (uid : Nat)
    (startOfThisMonth endOfToday : Int) : List Transaction :=
  store.filter (fun t =>
    t.userId == uid && decide (startOfThisMonth ≤ t.date) && decide (t.date ≤ endOfToday))

/-- The `{ income, expenses, balance }` result of `getMonthlySummary`. -/
structure MonthToDateSummary where
  income : Int
  expenses : Int
  balance : Int
deriving DecidableEq, Repr

/-- GET /api/transactions/summary with `now` abstracted into the two
bounds: fetch the between-window rows, accumulate income and expenses in
one pass (`forEach` with an if/else-if on `tx.type`). -/
def getMonthlySummary (store : List Transaction) (uid : Nat)
    (startOfThisMonth endOfToday : Int) : MonthToDateSummary :=
  let transactions := getMonthlySummaryTxs store uid startOfThisMonth endOfToday
  let totals := transactions.foldl (fun acc tx =>
    match tx.type with
    | .income => (acc.1 + tx.amount, acc.2)
    | .expense => (acc.1, acc.2 + tx.amount)) ((0 : Int), (0 : Int))
  { income := totals.1, expenses := totals.2, balance := totals.1 - totals.2 }

/-! ## categoryController.js -/

/-- Store state touched by category deletion: the categories table and the
transactions table (the latter is carried to state what deletion does not
touch). -/
structure DB where
  transactions : List Transaction
  categories : List Category
deriving DecidableEq, Repr

/-- The `Op.or` filter of `getCategories`: global rows (`userId` null) and
the rows owned by the caller. -/
def visibleCategories (cats : List Category) (uid : Nat) : List Category :=
  cats.filter (fun c => c.userId == none || c.userId == some uid)

/-- GET /api/categories: rejects a missing `userId`, otherwise the visible
set. -/
def getCategories (cats : List Category) (userId? : Option Nat) :
    Except ApiError (List Category) :=
  match userId? with
  | none => .error .validationError
  | some uid => .ok (visibleCategories cats uid)

/-- POST /api/categories: requires a non-empty `name` and a `userId`;
persists `{ name, userId }` (never a global category). -/
def createCategory (cats : List Category) (nextId : Nat)
    (name? : Option String) (userId? : Option Nat) :
    Except ApiError Category × List Category :=
  match name?, userId? with
  | some name, some uid =>
    if name == "" then (.error .validationError, cats)
    else
      let c : Category := { id := nextId, name := name, userId := some uid }
      (.ok c, cats ++ [c])
  | _, _ => (.error .validationError, cats)

/-- DELETE /api/categories/:id: 400 without `userId`; `findOne` by id, 404
when absent; 403 when `category.userId !== parseInt(userId)` (a null owner
never equals a number, so global categories always hit this branch);
otherwise `destroy()` removes the category row and nothing else. -/
def deleteCategory (db : DB) (categoryId : Nat) (userId? : Option Nat) :
    Except ApiError Unit × DB :=
  match userId? with
  | none => (.error .validationError, db)
  | some uid =>
    match db.categories.find? (fun c => c.id == categoryId) with
    | none => (.error .notFound, db)
    | some category =>
      if category.userId != some uid then
        (.error .forbidden, db)
      else
        (.ok (), { db with categories := db.categories.filter (fun c => !(c.id == categoryId)) })

/-! ## aiService.js -/

/-- One element of the `choices` array of the provider response; the field
models the presence of `message.content`. -/
structure LLMChoice where
  content? : Option String
deriving DecidableEq, Repr

/-- Outcome of the axios POST to the provider: the promise rejects
(transport failure or non-2xx status), or it resolves with a `choices`
array whose shape may still be malformed. -/
inductive LLMOutcome where
  | transportError
  | response (choices : List LLMChoice)
deriving DecidableEq, Repr

/-- Models `callLLM(prompt)`: on a resolved call, returns
`res.data.choices[0].message.content.trim()`; a rejected call, a missing
`choices[0]`, or a missing content field all land in the catch block,
which throws the generic message `LLM provider error`. -/
def callLLM (outcome : LLMOutcome) : Except String String :=
  match outcome with
  | .transportError => .error "LLM provider error"
  | .response choices =>
    match choices.head? with
    | none => .error "LLM provider error"
    | some choice =>
      match choice.content? with
      | none => .error "LLM provider error"
      | some content => .ok content.trim

/-- Models `list(userId)`: the suggestions of the user ordered by `createdAt`
descending. -/
def listSuggestions (store : List Suggestion) (uid : Nat) : List Suggestion :=
  List.insertionSort (fun a b => b.createdAt ≤ a.createdAt)
    (store.filter (fun s => s.userId == uid))

/-- Models `generateAndSave(userId, prompt)`: awaits `callLLM` first; only on its
success does `AISuggestion.create` append the record (with `createdAt`
from the database clock `now`).  A provider failure propagates before any
write, so the store is returned unchanged. -/
def generateAndSave (uid : Nat) (prompt : String) (outcome : LLMOutcome)
    (now : Nat) (store : List Suggestion) :
    Except String Suggestion × List Suggestion :=
  match callLLM outcome with
  | .error e => (.error e, store)
  | .ok response =>
    let record : Suggestion :=
      { userId := uid, prompt := prompt, response := response, createdAt := now }
    (.ok record, store ++ [record])

/-! ## ReportsComponent.loadData (category breakdown) -/

/-- JS object write `m[k] = v`: overwrite the binding when the key exists,
append it otherwise. -/
def recSet {α β : Type} [BEq α] : List (α × β) → α → β → List (α × β)
  | [], k, v => [(k, v)]
  | p :: rest, k, v => if p.1 == k then (k, v) :: rest else p :: recSet rest k v

/-- JS object read `m[k]`: `none` models `undefined`. -/
def recGet {α β : Type} [BEq α] (m : List (α × β)) (k : α) : Option β :=
  (m.find? (fun p => p.1 == k)).map (fun p => p.2)

/-- Models the reduce that builds `categoryMap`: for each category, the step
performs `acc[cat.id] = cat.name` on an initially empty object. -/
def buildCategoryMap (categories : List Category) : List (Nat × String) :=
  categories.foldl (fun acc cat => recSet acc cat.id cat.name) []

/-- Models the lookup `categoryMap[t.categoryId] || fallback` where the
fallback is the literal label Uncategorized; the `||` also maps an
empty-string name to the fallback, matching JS falsiness. -/
def categoryLabel (categoryMap : List (Nat × String)) (t : Transaction) : String :=
  match recGet categoryMap t.categoryId with
  | some name => if name == "" then "Uncategorized" else name
  | none => "Uncategorized"

/-- Models the record update `acc[name] = (acc[name] || 0) + amt`. -/
def addToRecord (m : List (String × Int)) (k : String) (amt : Int) :
    List (String × Int) :=
  recSet m k ((recGet m k).getD 0 + amt)

/-- The `filtered.forEach` of `loadData`: income rows add `t.amount` to
`incomeCategoryData[name]`, expense rows add `Math.abs(t.amount)` to
`expenseCategoryData[name]`. -/
def aggregateByCategory (categoryMap : List (Nat × String))
    (filtered : List Transaction) :
    List (String × Int) × List (String × Int) :=
  filtered.foldl (fun acc t =>
    let name := categoryLabel categoryMap t
    match t.type with
    | .income => (addToRecord acc.1 name t.amount, acc.2)
    | .expense => (acc.1, addToRecord acc.2 name |t.amount|)) ([], [])

/-- Models `monthlyData.income`: income rows of the filtered list, summed. -/
def loadDataIncome (filtered : List Transaction) : Int :=
  sumAmounts (filtered.filter (fun t => t.type == .income))

/-- Models `monthlyData.expenses`: expense rows, summed with `Math.abs`. -/
def loadDataExpenses (filtered : List Transaction) : Int :=
  (filtered.filter (fun t => t.type == .expense)).foldl
    (fun sum t => sum + |t.amount|) 0

/-- Sum of a breakdown mapping over all its labels. -/
def sumValues (m : List (String × Int)) : Int :=
  m.foldl (fun s p => s + p.2) 0

/-! ## Claim C1 -/

/-- C1: a transaction owned by user A never appears in the transaction
list returned for a different user B, and `listTransactions` returns
exactly the stored transactions whose owner is the requesting user. -/
theorem c1_listTransactions_ownership (store : List Transaction) (A B : Nat)
    (t : Transaction) :
    (t.userId = A → B ≠ A → t ∉ listTransactions store B) ∧
    (t ∈ listTransactions store B ↔ t ∈ store ∧ t.userId = B) := by
  have hchar : t ∈ listTransactions store B ↔ t ∈ store ∧ t.userId = B := by
    simp [listTransactions, List.mem_filter]
  refine ⟨?_, hchar⟩
  intro hA hBA hmem
  exact hBA ((hA.symm.trans (hchar.mp hmem).2).symm)

/-- Witness for C1 at a concrete store: the transaction of user 1 is not
listed for user 2. -/
theorem c1_witness :
    (⟨1, 1, 5, 0, 1, .income, none⟩ : Transaction) ∉
      listTransactions [⟨1, 1, 5, 0, 1, .income, none⟩] 2 :=
  (c1_listTransactions_ownership [⟨1, 1, 5, 0, 1, .income, none⟩] 1 2
      ⟨1, 1, 5, 0, 1, .income, none⟩).1 rfl (by decide)

/-! ## Claim C3 -/

/-- C3: when no stored transaction has both the requested id and the
requesting owner — the id is absent, or the row belongs to someone else —
`updateTransaction` answers with the single ambiguous NotFoundOrForbidden
error and the store is returned unchanged. -/
theorem c3_updateTransaction_ambiguous (store : List Transaction)
    (tid B : Nat) (fields : TxUpdate) (huid : fields.userId? = some B)
    (h : ∀ t ∈ store, t.id = tid → t.userId ≠ B) :
    updateTransaction store tid fields = (.error .notFoundOrForbidden, store) := by
  have hfind : store.find? (fun t => t.id == tid && t.userId == B) = none := by
    rw [List.find?_eq_none]
    intro t ht hp
    simp only [Bool.and_eq_true, beq_iff_eq] at hp
    exact h t ht hp.1 hp.2
  simp [updateTransaction, huid, hfind]

/-- Witness for C3: user 2 attempts to update the transaction of user 1
and receives the ambiguous error with the store intact. -/
theorem c3_witness :
    updateTransaction [⟨1, 1, 5, 0, 1, .income, none⟩] 1
        ⟨some 2, some 99, none, none, none, none⟩ =
      (.error .notFoundOrForbidden, [⟨1, 1, 5, 0, 1, .income, none⟩]) :=
  c3_updateTransaction_ambiguous [⟨1, 1, 5, 0, 1, .income, none⟩] 1 2
    ⟨some 2, some 99, none, none, none, none⟩ rfl (by decide)

/-! ## Claim C9 -/

/-- C9: on the spec example — income 1000 on 2025-07-03, expense 150 on
2025-07-10, expense 40 on 2025-08-01 — the July summary of user 1 is
income 1000, expense 150, balance 850, and the August expense is not in
the summarized window. -/
theorem c9_monthly_summary_example :
    monthlySummary
        [⟨1, 1, 1000, 20250703, 1, .income, none⟩,
         ⟨2, 1, 150, 20250710, 1, .expense, none⟩,
         ⟨3, 1, 40, 20250801, 1, .expense, none⟩] 1 20250701 20250801 =
      ⟨1000, 150, 850⟩ ∧
    (⟨3, 1, 40, 20250801, 1, .expense, none⟩ : Transaction) ∉
      monthlySummaryTxs
        [⟨1, 1, 1000, 20250703, 1, .income, none⟩,
         ⟨2, 1, 150, 20250710, 1, .expense, none⟩,
         ⟨3, 1, 40, 20250801, 1, .expense, none⟩] 1 20250701 20250801 := by
  decide

/-! ## Claim C10 -/

/-- C10: deleting a global category (null owner) fails with Forbidden for
every caller — a null owner never equals a parsed numeric user id — and
the whole store, the category included, is unchanged. -/
theorem c10_deleteCategory_global (db : DB) (catId uid : Nat) (cat : Category)
    (hfind : db.categories.find? (fun c => c.id == catId) = some cat)
    (hglobal : cat.userId = none) :
    deleteCategory db catId (some uid) = (.error .forbidden, db) ∧
    cat ∈ db.categories := by
  refine ⟨?_, List.mem_of_find?_eq_some hfind⟩
  simp [deleteCategory, hfind, hglobal]

/-- Witness for C10: user 7 cannot delete the global category 1. -/
theorem c10_witness :
    deleteCategory ⟨[], [⟨1, "Food", none⟩]⟩ 1 (some 7) =
      (.error .forbidden, ⟨[], [⟨1, "Food", none⟩]⟩) ∧
    (⟨1, "Food", none⟩ : Category) ∈ (⟨[], [⟨1, "Food", none⟩]⟩ : DB).categories :=
  c10_deleteCategory_global ⟨[], [⟨1, "Food", none⟩]⟩ 1 7 ⟨1, "Food", none⟩
    (by decide) rfl

/-! ## Claim C2 -/

/-- C2 counterexample: the month-to-date summary endpoint
(`getMonthlySummary`) fetches its window with Op.between, which is
inclusive at BOTH bounds.  With window end 100, the transaction dated
exactly 100 is fetched and counted in the income total, so a transaction
dated exactly at the window end is not excluded from the summary. -/
theorem c2_counterexample :
    (⟨1, 7, 50, 100, 3, .income, none⟩ : Transaction) ∈
      getMonthlySummaryTxs [⟨1, 7, 50, 100, 3, .income, none⟩] 7 0 100 ∧
    (getMonthlySummary [⟨1, 7, 50, 100, 3, .income, none⟩] 7 0 100).income = 50 := by
  decide

/-- C2 amended: the aggregator window of `monthlySummary`
(summaryService) is half-open — a transaction dated exactly at the window
start is summarized, one dated exactly at the window end is not — while
the `getMonthlySummary` endpoint uses an inclusive Op.between range, so
there a transaction dated exactly at the end bound is included. -/
theorem c2_amended_window_bounds (store : List Transaction) (uid : Nat)
    (s e : Int) (t : Transaction) (hmem : t ∈ store) (howner : t.userId = uid) :
    (t.date = s → s < e → t ∈ monthlySummaryTxs store uid s e) ∧
    (t.date = e → t ∉ monthlySummaryTxs store uid s e) ∧
    (t.date = e → s ≤ e → t ∈ getMonthlySummaryTxs store uid s e) := by
  refine ⟨?_, ?_, ?_⟩
  · intro hd hlt
    simp [monthlySummaryTxs, List.mem_filter, hmem, howner, hd]
    omega
  · intro hd hin
    simp [monthlySummaryTxs, List.mem_filter, hmem, howner, hd] at hin
  · intro hd hle
    simp [getMonthlySummaryTxs, List.mem_filter, hmem, howner, hd]
    omega

/-- Witness for the amended C2: with window `[5, 9)` a transaction dated
5 is summarized, one dated 9 is not, yet the between-window of the
month-to-date endpoint with bounds 5 and 9 includes the one dated 9. -/
theorem c2_amended_witness :
    ((⟨1, 7, 10, 5, 1, .income, none⟩ : Transaction) ∈
      monthlySummaryTxs [⟨1, 7, 10, 5, 1, .income, none⟩] 7 5 9) ∧
    ((⟨2, 7, 10, 9, 1, .income, none⟩ : Transaction) ∉
      monthlySummaryTxs [⟨2, 7, 10, 9, 1, .income, none⟩] 7 5 9) ∧
    ((⟨2, 7, 10, 9, 1, .income, none⟩ : Transaction) ∈
      getMonthlySummaryTxs [⟨2, 7, 10, 9, 1, .income, none⟩] 7 5 9) :=
  ⟨(c2_amended_window_bounds [⟨1, 7, 10, 5, 1, .income, none⟩] 7 5 9
      ⟨1, 7, 10, 5, 1, .income, none⟩ (by decide) rfl).1 rfl (by decide),
   (c2_amended_window_bounds [⟨2, 7, 10, 9, 1, .income, none⟩] 7 5 9
      ⟨2, 7, 10, 9, 1, .income, none⟩ (by decide) rfl).2.1 rfl,
   (c2_amended_window_bounds [⟨2, 7, 10, 9, 1, .income, none⟩] 7 5 9
      ⟨2, 7, 10, 9, 1, .income, none⟩ (by decide) rfl).2.2 rfl (by decide)⟩

/-! ## Claim C5 -/

/-- C5 counterexample: `createTransaction` happily persists a transaction
whose amount is -5 — the claim that a negative amount is never persisted
is false on the code. -/
theorem c5_counterexample :
    (createTransaction [] 1 ⟨some 7, some "expense", -5, 0, 1, none⟩).2 =
      [⟨1, 7, -5, 0, 1, .expense, none⟩] ∧
    ((⟨1, 7, -5, 0, 1, .expense, none⟩ : Transaction).amount < 0) := by
  decide

/-- C5 amended: create validates only the presence of `userId` and the
kind being income or expense; the amount is stored exactly as supplied,
with no sign check, and the update path likewise stores a supplied
amount verbatim. -/
theorem c5_amended_no_sign_check (store : List Transaction) (nextId : Nat)
    (body : TxBody) (uid : Nat) (ty : String)
    (huid : body.userId? = some uid) (hty : body.type? = some ty)
    (hvalid : ty = "income" ∨ ty = "expense") :
    (createTransaction store nextId body).1 = .ok (storedTx nextId uid ty body) ∧
    (createTransaction store nextId body).2 = store ++ [storedTx nextId uid ty body] ∧
    (storedTx nextId uid ty body).amount = body.amount ∧
    (∀ (t : Transaction) (fields : TxUpdate) (a : Int),
      fields.amount? = some a → (applyUpdate t fields).amount = a) := by
  have hcond : (ty == "income" || ty == "expense") = true := by
    rcases hvalid with h | h <;> simp [h]
  refine ⟨?_, ?_, rfl, ?_⟩
  · simp [createTransaction, huid, hty, hcond]
  · simp [createTransaction, huid, hty, hcond]
  · intro t fields a ha
    simp [applyUpdate, ha]

/-- Witness for the amended C5: the concrete negative-amount body is
persisted with its amount unchanged. -/
theorem c5_amended_witness :
    (createTransaction [] 1 ⟨some 7, some "expense", -5, 0, 1, none⟩).2 =
      [] ++ [storedTx 1 7 "expense" ⟨some 7, some "expense", -5, 0, 1, none⟩] ∧
    (storedTx 1 7 "expense" ⟨some 7, some "expense", -5, 0, 1, none⟩).amount =
      (⟨some 7, some "expense", -5, 0, 1, none⟩ : TxBody).amount :=
  ⟨(c5_amended_no_sign_check [] 1 ⟨some 7, some "expense", -5, 0, 1, none⟩ 7
      "expense" rfl rfl (Or.inr rfl)).2.1,
   (c5_amended_no_sign_check [] 1 ⟨some 7, some "expense", -5, 0, 1, none⟩ 7
      "expense" rfl rfl (Or.inr rfl)).2.2.1⟩

/-! ## Claim C4 -/

/-- Every failure of the provider call carries the one generic message
thrown by the catch block of `callLLM`. -/
lemma callLLM_error_message (outcome : LLMOutcome) (e : String)
    (h : callLLM outcome = .error e) : e = "LLM provider error" := by
  cases outcome with
  | transportError => simpa [callLLM] using h.symm
  | response choices =>
    cases choices with
    | nil => simpa [callLLM] using h.symm
    | cons choice rest =>
      cases hc : choice.content? with
      | none => rw [callLLM] at h; simp [hc] at h; exact h.symm
      | some content => rw [callLLM] at h; simp [hc] at h

/-- C4: when the provider call fails — transport failure, non-success
response, or malformed payload, all of which make `callLLM` return an
error — `generateAndSave` leaves the suggestion store untouched, the
length of the history of every user is unchanged, and the caller sees
the provider error. -/
theorem c4_generate_failure_persists_nothing (uid : Nat) (prompt : String)
    (outcome : LLMOutcome) (now : Nat) (store : List Suggestion) (e : String)
    (hfail : callLLM outcome = .error e) :
    (generateAndSave uid prompt outcome now store).2 = store ∧
    (∀ viewer : Nat,
      (listSuggestions (generateAndSave uid prompt outcome now store).2 viewer).length =
        (listSuggestions store viewer).length) ∧
    (generateAndSave uid prompt outcome now store).1 = .error "LLM provider error" := by
  have hmsg := callLLM_error_message outcome e hfail
  refine ⟨?_, ?_, ?_⟩
  · simp [generateAndSave, hfail]
  · intro viewer
    simp [generateAndSave, hfail]
  · simp [generateAndSave, hfail, hmsg]

/-- Witness for C4: a transport failure on an empty store generates no
record and surfaces the provider error. -/
theorem c4_witness :
    (generateAndSave 7 "advice please" .transportError 3 []).2 = [] ∧
    (∀ viewer : Nat,
      (listSuggestions (generateAndSave 7 "advice please" .transportError 3 []).2
          viewer).length = (listSuggestions [] viewer).length) ∧
    (generateAndSave 7 "advice please" .transportError 3 []).1 =
      .error "LLM provider error" :=
  c4_generate_failure_persists_nothing 7 "advice please" .transportError 3 []
    "LLM provider error" rfl

/-! ## Claim C6 -/

/-- Folding the amount-accumulator from any initial value adds the total
of the list. -/
lemma sumAmounts_foldl (l : List Transaction) (init : Int) :
    l.foldl (fun sum t => sum + t.amount) init = init + sumAmounts l := by
  induction l generalizing init with
  | nil => simp [sumAmounts]
  | cons t rest ih =>
    simp only [sumAmounts, List.foldl_cons] at *
    rw [ih (init + t.amount), ih (0 + t.amount)]
    ring

/-- Head-unfolding of `sumAmounts`. -/
lemma sumAmounts_cons (t : Transaction) (l : List Transaction) :
    sumAmounts (t :: l) = t.amount + sumAmounts l := by
  calc sumAmounts (t :: l)
      = List.foldl (fun sum t => sum + t.amount) (0 + t.amount) l := rfl
    _ = (0 + t.amount) + sumAmounts l := sumAmounts_foldl l (0 + t.amount)
    _ = t.amount + sumAmounts l := by ring

/-- When one predicate splits as the disjoint union of two others, the
amount total over its filter splits accordingly. -/
lemma sumAmounts_filter_split (l : List Transaction)
    (p q r : Transaction → Bool)
    (hsplit : ∀ t, p t = (q t || r t))
    (hdisj : ∀ t, ¬(q t = true ∧ r t = true)) :
    sumAmounts (l.filter p) =
      sumAmounts (l.filter q) + sumAmounts (l.filter r) := by
  induction l with
  | nil => simp [sumAmounts]
  | cons t rest ih =>
    simp only [List.filter_cons]
    by_cases hq : q t = true
    · have hr : r t = false := by
        cases hrt : r t with
        | false => rfl
        | true => exact absurd ⟨hq, hrt⟩ (hdisj t)
      have hp : p t = true := by rw [hsplit]; simp [hq]
      simp [hp, hq, hr, sumAmounts_cons, ih]
      ring
    · have hq' : q t = false := by
        cases hqt : q t with
        | false => rfl
        | true => exact absurd hqt hq
      by_cases hr : r t = true
      · have hp : p t = true := by rw [hsplit]; simp [hr]
        simp [hp, hq', hr, sumAmounts_cons, ih]
        ring
      · have hr' : r t = false := by
          cases hrt : r t with
          | false => rfl
          | true => exact absurd hrt hr
        have hp : p t = false := by rw [hsplit]; simp [hq', hr']
        simp [hp, hq', hr', ih]

/-- A summarized amount total over `[a, c)` splits at any intermediate
bound `b` into the `[a, b)` and `[b, c)` totals, for either kind. -/
lemma sumAmounts_window_split (store : List Transaction) (uid : Nat)
    (k : TxKind) (a b c : Int) (hab : a ≤ b) (hbc : b ≤ c) :
    sumAmounts ((monthlySummaryTxs store uid a c).filter (fun t => t.type == k)) =
      sumAmounts ((monthlySummaryTxs store uid a b).filter (fun t => t.type == k)) +
      sumAmounts ((monthlySummaryTxs store uid b c).filter (fun t => t.type == k)) := by
  simp only [monthlySummaryTxs, List.filter_filter]
  apply sumAmounts_filter_split
  · intro t
    rw [Bool.eq_iff_iff]
    simp only [Bool.and_eq_true, Bool.or_eq_true, decide_eq_true_eq, beq_iff_eq]
    by_cases h1 : t.userId = uid <;> by_cases h2 : t.type = k <;>
      simp [h1, h2] <;> omega
  · rintro t ⟨hq, hr⟩
    simp only [Bool.and_eq_true, decide_eq_true_eq, beq_iff_eq] at hq hr
    omega

/-- C6: `monthlySummary` is window-additive — the summary over
`[m1start, m2end)` is the component-wise `combine` of the summaries over
`[m1start, m1end)` and `[m1end, m2end)` for any split point inside the
window. -/
theorem c6_summary_window_additive (store : List Transaction) (uid : Nat)
    (m1start m1end m2end : Int) (h1 : m1start ≤ m1end) (h2 : m1end < m2end) :
    monthlySummary store uid m1start m2end =
      combine (monthlySummary store uid m1start m1end)
        (monthlySummary store uid m1end m2end) := by
  have hbc : m1end ≤ m2end := le_of_lt h2
  have hi := sumAmounts_window_split store uid .income m1start m1end m2end h1 hbc
  have he := sumAmounts_window_split store uid .expense m1start m1end m2end h1 hbc
  simp only [monthlySummary, combine, Summary.mk.injEq]
  refine ⟨hi, he, ?_⟩
  rw [hi, he]
  ring

/-- Witness for C6 at a concrete store and split point. -/
theorem c6_witness :
    monthlySummary
        [⟨1, 1, 10, 5, 1, .income, none⟩, ⟨2, 1, 4, 7, 1, .expense, none⟩] 1 0 10 =
      combine
        (monthlySummary
          [⟨1, 1, 10, 5, 1, .income, none⟩, ⟨2, 1, 4, 7, 1, .expense, none⟩] 1 0 6)
        (monthlySummary
          [⟨1, 1, 10, 5, 1, .income, none⟩, ⟨2, 1, 4, 7, 1, .expense, none⟩] 1 6 10) :=
  c6_summary_window_additive
    [⟨1, 1, 10, 5, 1, .income, none⟩, ⟨2, 1, 4, 7, 1, .expense, none⟩] 1 0 6 10
    (by decide) (by decide)

/-! ## Claim C7 -/

/-- Folding the value-accumulator of a record from any initial value adds
the total of the record. -/
lemma sumValues_foldl (m : List (String × Int)) (init : Int) :
    m.foldl (fun s p => s + p.2) init = init + sumValues m := by
  induction m generalizing init with
  | nil => simp [sumValues]
  | cons p rest ih =>
    simp only [sumValues, List.foldl_cons] at *
    rw [ih (init + p.2), ih (0 + p.2)]
    ring

/-- Head-unfolding of `sumValues`. -/
lemma sumValues_cons (p : String × Int) (m : List (String × Int)) :
    sumValues (p :: m) = p.2 + sumValues m := by
  calc sumValues (p :: m)
      = m.foldl (fun s q => s + q.2) (0 + p.2) := rfl
    _ = (0 + p.2) + sumValues m := sumValues_foldl m (0 + p.2)
    _ = p.2 + sumValues m := by ring

/-- Head-unfolding of the JS object read. -/
lemma recGet_cons {α β : Type} [BEq α] (p : α × β) (m : List (α × β)) (k : α) :
    recGet (p :: m) k = if p.1 == k then some p.2 else recGet m k := by
  by_cases h : (p.1 == k) = true <;> simp [recGet, List.find?, h]

/-- A record update adds the added amount to the total of the values. -/
lemma sumValues_addToRecord (m : List (String × Int)) (k : String) (amt : Int) :
    sumValues (addToRecord m k amt) = sumValues m + amt := by
  induction m with
  | nil => simp [addToRecord, recSet, recGet, sumValues]
  | cons p rest ih =>
    simp only [addToRecord] at ih ⊢
    by_cases hpk : (p.1 == k) = true
    · simp only [recGet_cons, hpk, if_true, Option.getD_some, recSet,
        sumValues_cons]
      ring
    · have hpk' : (p.1 == k) = false := by simpa using hpk
      simp only [recGet_cons, hpk', Bool.false_eq_true, if_false, recSet,
        sumValues_cons]
      rw [ih]
      ring

/-- Adding an income row adds its amount to the income total of
`loadData`. -/
lemma loadDataIncome_cons_income (t : Transaction) (l : List Transaction)
    (h : t.type = TxKind.income) :
    loadDataIncome (t :: l) = t.amount + loadDataIncome l := by
  simp [loadDataIncome, List.filter_cons, h, sumAmounts_cons]

/-- An expense row does not change the income total of `loadData`. -/
lemma loadDataIncome_cons_expense (t : Transaction) (l : List Transaction)
    (h : t.type = TxKind.expense) :
    loadDataIncome (t :: l) = loadDataIncome l := by
  simp [loadDataIncome, List.filter_cons, h]

/-- Folding the absolute-amount accumulator from any initial value adds
the zero-based total. -/
lemma absSum_foldl (l : List Transaction) (init : Int) :
    l.foldl (fun sum t => sum + |t.amount|) init =
      init + l.foldl (fun sum t => sum + |t.amount|) 0 := by
  induction l generalizing init with
  | nil => simp
  | cons t rest ih =>
    simp only [List.foldl_cons]
    rw [ih (init + |t.amount|), ih (0 + |t.amount|)]
    ring

/-- Adding an expense row adds its absolute amount to the expenses total
of `loadData`. -/
lemma loadDataExpenses_cons_expense (t : Transaction) (l : List Transaction)
    (h : t.type = TxKind.expense) :
    loadDataExpenses (t :: l) = |t.amount| + loadDataExpenses l := by
  simp only [loadDataExpenses, List.filter_cons, h, beq_self_eq_true, if_true,
    List.foldl_cons]
  rw [absSum_foldl (l.filter (fun t => t.type == TxKind.expense)) (0 + |t.amount|)]
  ring

/-- An income row does not change the expenses total of `loadData`. -/
lemma loadDataExpenses_cons_income (t : Transaction) (l : List Transaction)
    (h : t.type = TxKind.income) :
    loadDataExpenses (t :: l) = loadDataExpenses l := by
  simp [loadDataExpenses, List.filter_cons, h]

/-- Under the non-negative-amount invariant, the expenses total of
`loadData` (which applies `Math.abs`) coincides with the raw expense sum
of `monthlySummary`. -/
lemma loadDataExpenses_eq_sumAmounts (l : List Transaction)
    (h : ∀ t ∈ l, 0 ≤ t.amount) :
    loadDataExpenses l = sumAmounts (l.filter (fun t => t.type == TxKind.expense)) := by
  induction l with
  | nil => simp [loadDataExpenses, sumAmounts]
  | cons t rest ih =>
    have ht : 0 ≤ t.amount := h t (List.mem_cons_self t rest)
    have hrest : ∀ x ∈ rest, 0 ≤ x.amount := fun x hx =>
      h x (List.mem_cons_of_mem t hx)
    cases htype : t.type with
    | income =>
      rw [loadDataExpenses_cons_income t rest htype, ih hrest]
      simp [List.filter_cons, htype]
    | expense =>
      rw [loadDataExpenses_cons_expense t rest htype, ih hrest]
      simp [List.filter_cons, htype, sumAmounts_cons, abs_of_nonneg ht]

/-- The category aggregation loop of `loadData` accumulates, on top of any
starting records, exactly the income total into the income breakdown and
the absolute expense total into the expense breakdown. -/
lemma aggregate_foldl_sums (catMap : List (Nat × String)) (l : List Transaction) :
    ∀ acc : List (String × Int) × List (String × Int),
    sumValues ((l.foldl (fun acc t =>
        let name := categoryLabel catMap t
        match t.type with
        | .income => (addToRecord acc.1 name t.amount, acc.2)
        | .expense => (acc.1, addToRecord acc.2 name |t.amount|)) acc)).1 =
      sumValues acc.1 + loadDataIncome l ∧
    sumValues ((l.foldl (fun acc t =>
        let name := categoryLabel catMap t
        match t.type with
        | .income => (addToRecord acc.1 name t.amount, acc.2)
        | .expense => (acc.1, addToRecord acc.2 name |t.amount|)) acc)).2 =
      sumValues acc.2 + loadDataExpenses l := by
  induction l with
  | nil =>
    intro acc
    simp [loadDataIncome, loadDataExpenses, sumAmounts]
  | cons t rest ih =>
    intro acc
    simp only [List.foldl_cons]
    cases htype : t.type with
    | income =>
      simp only [htype]
      have h := ih (addToRecord acc.1 (categoryLabel catMap t) t.amount, acc.2)
      refine ⟨?_, ?_⟩
      · rw [h.1, sumValues_addToRecord, loadDataIncome_cons_income t rest htype]
        ring
      · rw [h.2, loadDataExpenses_cons_income t rest htype]
    | expense =>
      simp only [htype]
      have h := ih (acc.1, addToRecord acc.2 (categoryLabel catMap t) |t.amount|)
      refine ⟨?_, ?_⟩
      · rw [h.1, loadDataIncome_cons_expense t rest htype]
      · rw [h.2, sumValues_addToRecord, loadDataExpenses_cons_expense t rest htype]
        ring

/-- C7: for any store, user, window and category map, the breakdown
mappings of `loadData` total exactly the corresponding summary figures —
the income labels sum to the income total and the expense labels to the
expense total of `monthlySummary` over the same windowed transactions —
given the non-negative-amount data-model invariant. -/
theorem c7_breakdown_totals_match (store : List Transaction) (uid : Nat)
    (s e : Int) (catMap : List (Nat × String))
    (hpos : ∀ t ∈ store, 0 ≤ t.amount) :
    sumValues (aggregateByCategory catMap (monthlySummaryTxs store uid s e)).1 =
      (monthlySummary store uid s e).income ∧
    sumValues (aggregateByCategory catMap (monthlySummaryTxs store uid s e)).2 =
      (monthlySummary store uid s e).expense := by
  have hfold := aggregate_foldl_sums catMap (monthlySummaryTxs store uid s e) ([], [])
  have hposf : ∀ t ∈ monthlySummaryTxs store uid s e, 0 ≤ t.amount := by
    intro t ht
    exact hpos t (List.mem_filter.mp ht).1
  constructor
  · calc sumValues (aggregateByCategory catMap (monthlySummaryTxs store uid s e)).1
        = sumValues ([] : List (String × Int)) +
            loadDataIncome (monthlySummaryTxs store uid s e) := hfold.1
      _ = loadDataIncome (monthlySummaryTxs store uid s e) := by simp [sumValues]
      _ = (monthlySummary store uid s e).income := rfl
  · calc sumValues (aggregateByCategory catMap (monthlySummaryTxs store uid s e)).2
        = sumValues ([] : List (String × Int)) +
            loadDataExpenses (monthlySummaryTxs store uid s e) := hfold.2
      _ = loadDataExpenses (monthlySummaryTxs store uid s e) := by simp [sumValues]
      _ = sumAmounts ((monthlySummaryTxs store uid s e).filter
            (fun t => t.type == TxKind.expense)) :=
          loadDataExpenses_eq_sumAmounts _ hposf
      _ = (monthlySummary store uid s e).expense := rfl

/-- Witness for C7 on a concrete store, window and category map. -/
theorem c7_witness :
    sumValues (aggregateByCategory [(2, "Salary"), (3, "Food")]
        (monthlySummaryTxs
          [⟨1, 1, 100, 5, 2, .income, none⟩, ⟨2, 1, 30, 6, 3, .expense, none⟩] 1 0 10)).1 =
      (monthlySummary
        [⟨1, 1, 100, 5, 2, .income, none⟩, ⟨2, 1, 30, 6, 3, .expense, none⟩] 1 0 10).income ∧
    sumValues (aggregateByCategory [(2, "Salary"), (3, "Food")]
        (monthlySummaryTxs
          [⟨1, 1, 100, 5, 2, .income, none⟩, ⟨2, 1, 30, 6, 3, .expense, none⟩] 1 0 10)).2 =
      (monthlySummary
        [⟨1, 1, 100, 5, 2, .income, none⟩, ⟨2, 1, 30, 6, 3, .expense, none⟩] 1 0 10).expense :=
  c7_breakdown_totals_match
    [⟨1, 1, 100, 5, 2, .income, none⟩, ⟨2, 1, 30, 6, 3, .expense, none⟩] 1 0 10
    [(2, "Salary"), (3, "Food")] (by decide)

/-! ## Claim C8 -/

/-- Reading a JS object after a write: the written key returns the new
value, any other key is unaffected. -/
lemma recGet_recSet {α β : Type} [BEq α] [LawfulBEq α]
    (m : List (α × β)) (a k : α) (v : β) :
    recGet (recSet m a v) k = if a == k then some v else recGet m k := by
  induction m with
  | nil =>
    by_cases h : (a == k) = true <;> simp [recSet, recGet, List.find?, h]
  | cons p rest ih =>
    by_cases hpa : (p.1 == a) = true
    · have hpa' : p.1 = a := eq_of_beq hpa
      simp only [recSet, hpa, if_true]
      by_cases hak : (a == k) = true
      · simp [recGet_cons, hak]
      · have hak' : (a == k) = false := by simpa using hak
        have hpk : (p.1 == k) = false := by
          rw [hpa']
          exact hak'
        simp [recGet_cons, hak', hpk]
    · have hpa' : (p.1 == a) = false := by simpa using hpa
      simp only [recSet, hpa', Bool.false_eq_true, if_false]
      by_cases hpk : (p.1 == k) = true
      · have hak' : (a == k) = false := by
          cases hac : (a == k) with
          | false => rfl
          | true =>
            have h1 : p.1 = k := eq_of_beq hpk
            have h2 : a = k := eq_of_beq hac
            have : (p.1 == a) = true := by rw [h1, h2]; exact beq_self_eq_true k
            rw [this] at hpa'
            cases hpa'
        simp [recGet_cons, hpk, hak']
      · simp [recGet_cons, hpk, ih]

/-- When no category in the list carries the key, the built category map
has no entry for it, whatever the starting accumulator lacks it. -/
lemma recGet_foldl_none (k : Nat) (cats : List Category) :
    ∀ acc : List (Nat × String), (∀ c ∈ cats, c.id ≠ k) → recGet acc k = none →
      recGet (cats.foldl (fun m c => recSet m c.id c.name) acc) k = none := by
  induction cats with
  | nil =>
    intro acc _ hacc
    simpa using hacc
  | cons c rest ih =>
    intro acc h hacc
    simp only [List.foldl_cons]
    apply ih
    · intro x hx
      exact h x (List.mem_cons_of_mem c hx)
    · rw [recGet_recSet]
      have hck : (c.id == k) = false := by
        simpa using h c (List.mem_cons_self c rest)
      simp [hck, hacc]

/-- A key carried by no category resolves to nothing in the category map
of `loadData`. -/
lemma buildCategoryMap_none (cats : List Category) (k : Nat)
    (h : ∀ c ∈ cats, c.id ≠ k) : recGet (buildCategoryMap cats) k = none :=
  recGet_foldl_none k cats [] h rfl

/-- C8: deleting an owned category succeeds, leaves every transaction
record untouched, and afterwards the category aggregation of every
viewer labels any transaction that references the deleted category id
with the literal label Uncategorized. -/
theorem c8_delete_category_keeps_transactions (db : DB) (catId uid : Nat)
    (cat : Category)
    (hfind : db.categories.find? (fun c => c.id == catId) = some cat)
    (howner : cat.userId = some uid) :
    (deleteCategory db catId (some uid)).1 = .ok () ∧
    (deleteCategory db catId (some uid)).2.transactions = db.transactions ∧
    (∀ (viewer : Nat) (t : Transaction), t.categoryId = catId →
      categoryLabel
        (buildCategoryMap
          (visibleCategories (deleteCategory db catId (some uid)).2.categories viewer)) t =
      "Uncategorized") := by
  have hdel : deleteCategory db catId (some uid) =
      (.ok (),
       { db with categories := db.categories.filter (fun c => !(c.id == catId)) }) := by
    simp [deleteCategory, hfind, howner]
  rw [hdel]
  refine ⟨rfl, rfl, ?_⟩
  intro viewer t ht
  have hnone : recGet
      (buildCategoryMap
        (visibleCategories
          (db.categories.filter (fun c => !(c.id == catId))) viewer)) t.categoryId =
      none := by
    apply buildCategoryMap_none
    intro c hc
    have hkeep := (List.mem_filter.mp (List.mem_filter.mp hc).1).2
    simp only [Bool.not_eq_eq_eq_not, Bool.not_true, beq_eq_false_iff_ne] at hkeep
    rw [ht]
    exact hkeep
  simp [categoryLabel, hnone]

/-- Witness for C8: user 7 deletes own category 1; the referencing
transaction survives and is labelled Uncategorized afterwards. -/
theorem c8_witness :
    (deleteCategory
        ⟨[⟨1, 7, 10, 5, 1, .income, none⟩], [⟨1, "Food", some 7⟩]⟩ 1 (some 7)).1 =
      .ok () ∧
    (deleteCategory
        ⟨[⟨1, 7, 10, 5, 1, .income, none⟩], [⟨1, "Food", some 7⟩]⟩ 1 (some 7)).2.transactions =
      [⟨1, 7, 10, 5, 1, .income, none⟩] ∧
    categoryLabel
        (buildCategoryMap
          (visibleCategories
            (deleteCategory
              ⟨[⟨1, 7, 10, 5, 1, .income, none⟩], [⟨1, "Food", some 7⟩]⟩ 1 (some 7)).2.categories 7))
        ⟨1, 7, 10, 5, 1, .income, none⟩ =
      "Uncategorized" := by
  have h := c8_delete_category_keeps_transactions
    ⟨[⟨1, 7, 10, 5, 1, .income, none⟩], [⟨1, "Food", some 7⟩]⟩ 1 7 ⟨1, "Food", some 7⟩
    (by decide) rfl
  exact ⟨h.1, h.2.1, h.2.2 7 ⟨1, 7, 10, 5, 1, .income, none⟩ rfl⟩
